import Mathlib

set_option linter.unusedVariables false

/-
  Verification development for the route-to-music mapper repository.

  Shallow embedding of the core pipeline:
  * the durable job queue and its claim/retry executor (src/lib/jobProcessor.ts),
  * the webhook ingestion handler (the Strava webhook POST route),
  * the song-to-route mapper (src/utils/songMapper.ts) and the
    coordinate interpolation over cumulative Haversine distance
    (src/utils/polyline.ts),
  * the token lifecycle manager (src/lib/tokenManager.ts).

  Numbers that the TypeScript source handles as JS numbers are modelled as
  rationals (ℚ) where the code only ever adds, subtracts, multiplies,
  divides and compares them, and as reals (ℝ) where the code applies
  transcendental functions (the Haversine distance).  Database state is
  modelled as explicit lists of rows, and each SQL statement as a pure
  state transformer.  Fallible steps are modelled with Except.
-/

namespace RouteToMusic

/-! ## Job queue (src/lib/jobProcessor.ts, table processing_jobs) -/

/-- Status values of the processing_jobs table:
    'pending', 'processing', 'completed', 'failed', 'retry'. -/
inductive JobStatus where
  | pending
  | processing
  | completed
  | failed
  | retry
deriving DecidableEq, Repr

/-- One row of the processing_jobs table (the columns the executor reads
    or writes).  Time is measured in minutes (the unit of the SQL
    INTERVAL used for the retry backoff). -/
structure Job where
  id : Nat
  jobType : String
  status : JobStatus
  priority : Int
  attempts : Nat
  maxRetries : Nat
  errorMessage : Option String
  scheduledFor : Int
  startedAt : Option Int
  completedAt : Option Int
deriving DecidableEq, Repr

/-- A job database is a list of rows. -/
abbrev JobDb := List Job

/-- UPDATE ... WHERE id = jobId applied to every matching row. -/
def updateJob (db : JobDb) (jobId : Nat) (f : Job → Job) : JobDb :=
  db.map (fun j => if j.id = jobId then f j else j)

/-- Whether a row is claimable: status IN ('pending', 'retry'). -/
def claimable (j : Job) : Prop :=
  j.status = JobStatus.pending ∨ j.status = JobStatus.retry

instance : DecidablePred claimable := fun j => by
  unfold claimable; infer_instance

/-- The conditional claim from processJob:
    UPDATE processing_jobs
    SET status='processing', started_at=now, attempts=attempts+1
    WHERE id = jobId AND status IN ('pending','retry') RETURNING *.
    Returns the claimed row (if any) and the updated table. -/
def lockJob (now : Int) (db : JobDb) (jobId : Nat) : Option Job × JobDb :=
  match db.find? (fun j => decide (j.id = jobId ∧ claimable j)) with
  | none => (none, db)
  | some j =>
      let j' : Job :=
        { j with status := JobStatus.processing
                 startedAt := some now
                 attempts := j.attempts + 1 }
      (some j',
       db.map (fun k => if k.id = jobId ∧ claimable k then j' else k))

/-- The success epilogue of processJob:
    UPDATE processing_jobs SET status='completed', completed_at=now
    WHERE id = jobId. -/
def completeJob (now : Int) (db : JobDb) (jobId : Nat) : JobDb :=
  updateJob db jobId (fun k =>
    { k with status := JobStatus.completed, completedAt := some now })

/-- The catch block of processJob: re-read attempts and max_retries; if
    attempts < max_retries schedule a retry at now + 2^attempts minutes
    recording the error, otherwise mark the job failed recording the
    error. -/
def failOrRetry (now : Int) (db : JobDb) (jobId : Nat) (err : String) : JobDb :=
  match db.find? (fun j => decide (j.id = jobId)) with
  | none => db
  | some j =>
      if j.attempts < j.maxRetries then
        updateJob db jobId (fun k =>
          { k with status := JobStatus.retry
                   errorMessage := some err
                   scheduledFor := now + 2 ^ j.attempts })
      else
        updateJob db jobId (fun k =>
          { k with status := JobStatus.failed
                   errorMessage := some err })

/-- processJob(jobId): claim the row with a conditional update; if no row
    is returned, do nothing.  Otherwise run the job work (only the
    'process_activity' job type is known), then mark the job completed,
    or — on any thrown error — run the failOrRetry catch block against
    the post-claim table. -/
def processJob (now : Int) (work : Job → Except String Unit)
    (db : JobDb) (jobId : Nat) : JobDb :=
  match lockJob now db jobId with
  | (none, db') => db'
  | (some job, db') =>
      let res : Except String Unit :=
        if job.jobType = "process_activity" then work job
        else Except.error ("Unknown job type: " ++ job.jobType)
      match res with
      | Except.ok _ => completeJob now db' jobId
      | Except.error e => failOrRetry now db' jobId e

/-- ORDER BY priority DESC, scheduled_for ASC as a boolean total order. -/
def jobOrder (a b : Job) : Bool :=
  decide (b.priority < a.priority ∨
          (a.priority = b.priority ∧ a.scheduledFor ≤ b.scheduledFor))

/-- The selection query of processPendingJobs:
    SELECT id FROM processing_jobs
    WHERE status IN ('pending','retry') AND scheduled_for <= now
    ORDER BY priority DESC, scheduled_for ASC LIMIT limit. -/
def selectPendingJobs (now : Int) (limit : Nat) (db : JobDb) : JobDb :=
  ((db.filter (fun j => decide (claimable j ∧ j.scheduledFor ≤ now))).mergeSort
    jobOrder).take limit

/-- A fresh process_activity job as the webhook would enqueue it
    (attempts 0, max_retries 3, status pending). -/
def sampleJob : Job :=
  ⟨1, "process_activity", JobStatus.pending, 0, 0, 3, none, 0, none, none⟩

/-- Job work that always throws, as an upstream call that always errors. -/
def failingWork : Job → Except String Unit := fun _ => Except.error "boom"

/-- The row sampleJob becomes when claimed at time 0. -/
def sampleLocked : Job :=
  ⟨1, "process_activity", JobStatus.processing, 0, 1, 3, none, 0, some 0, none⟩

/-- The row sampleJob becomes after its first failed attempt at time 0. -/
def sampleRetried : Job :=
  ⟨1, "process_activity", JobStatus.retry, 0, 1, 3, some "boom", 2, some 0, none⟩

/-! ## Webhook ingestion (the Strava webhook POST route)

The handler body runs inside one try/catch.  Each database statement can
throw; a thrown statement performs no write, while writes already made by
earlier statements persist (there is no transaction).  Failure injection
is modelled by a flag per statement.  The JSON body is modelled as parsed
optional fields; a failed request.json() call is the parse fault. -/

/-- The destructured fields of the webhook JSON body. -/
structure WebhookBody where
  objectType : Option String
  objectId : Option Int
  aspectType : Option String
  ownerId : Option Int
  subscriptionId : Option Int
  eventTime : Option Int
deriving DecidableEq, Repr

/-- JS truthiness of a possibly-absent string: !x holds for undefined and
    for the empty string. -/
def truthyStr : Option String → Bool
  | none => false
  | some s => s ≠ ""

/-- JS truthiness of a possibly-absent number: !x holds for undefined and
    for 0. -/
def truthyInt : Option Int → Bool
  | none => false
  | some n => n ≠ 0

/-- The required-field validation:
    !object_type || !object_id || !aspect_type || !owner_id rejects. -/
def validEvent (body : WebhookBody) : Bool :=
  truthyStr body.objectType && truthyInt body.objectId &&
    truthyStr body.aspectType && truthyInt body.ownerId

/-- One row of the webhook_events audit table. -/
structure WebhookEventRow where
  id : Nat
  subscriptionId : Option Int
  objectType : Option String
  objectId : Option Int
  aspectType : Option String
  ownerId : Option Int
  eventTime : Option Int
  processed : Bool
deriving DecidableEq, Repr

/-- The values inserted into processing_jobs by the webhook handler. -/
structure ProcessingJobInsert where
  jobType : String
  userId : Nat
  activityId : Int
  webhookEventId : Nat
  status : JobStatus
  priority : Int
deriving DecidableEq, Repr

/-- The tables the webhook handler touches.  users maps internal user id
    to strava_athlete_id; activities lists stored strava_activity_id. -/
structure WebhookDb where
  nextEventId : Nat
  events : List WebhookEventRow
  users : List (Nat × Int)
  jobs : List ProcessingJobInsert
  activities : List Int
deriving DecidableEq, Repr

/-- Which database statements of the handler throw. -/
structure WebhookFaults where
  insertEventFails : Bool
  selectUserFails : Bool
  insertJobFails : Bool
  deleteActivityFails : Bool
  markProcessedFails : Bool
deriving DecidableEq, Repr

/-- An HTTP response: status code, the success field of the JSON body
    (when present), the error field (when present). -/
structure ApiResponse where
  status : Nat
  success : Option Bool
  error : Option String
deriving DecidableEq, Repr

/-- NextResponse.json with success true (default status 200). -/
def okResponse : ApiResponse := ⟨200, some true, none⟩

/-- The catch-block response: status 200 with success false. -/
def caughtResponse : ApiResponse := ⟨200, some false, some "Internal error"⟩

/-- The validation-failure response: status 400. -/
def invalidResponse : ApiResponse := ⟨400, none, some "Invalid event data"⟩

/-- UPDATE webhook_events SET processed = true WHERE id = eid, then the
    final success response. -/
def markProcessed (f : WebhookFaults) (db : WebhookDb) (eid : Nat) :
    ApiResponse × WebhookDb :=
  if f.markProcessedFails then (caughtResponse, db)
  else
    (okResponse,
     { db with events := db.events.map (fun ev =>
        if ev.id = eid then { ev with processed := true } else ev) })

/-- The webhook POST handler.  parsed = none models request.json()
    throwing; every other fault jumps to the catch block, which responds
    with status 200 and success false. -/
def webhookPost (f : WebhookFaults) (parsed : Option WebhookBody)
    (db : WebhookDb) : ApiResponse × WebhookDb :=
  match parsed with
  | none => (caughtResponse, db)
  | some body =>
      if validEvent body then
        if f.insertEventFails then (caughtResponse, db)
        else
          let eid := db.nextEventId
          let row : WebhookEventRow :=
            ⟨eid, body.subscriptionId, body.objectType, body.objectId,
             body.aspectType, body.ownerId, body.eventTime, false⟩
          let db1 := { db with nextEventId := eid + 1,
                               events := db.events ++ [row] }
          if body.objectType = some "activity"
              ∧ body.aspectType = some "create" then
            if f.selectUserFails then (caughtResponse, db1)
            else
              match db1.users.find? (fun u => decide (some u.2 = body.ownerId)) with
              | none => (okResponse, db1)
              | some u =>
                  if f.insertJobFails then (caughtResponse, db1)
                  else
                    let db2 := { db1 with jobs := db1.jobs ++
                      [⟨"process_activity", u.1, body.objectId.getD 0, eid,
                        JobStatus.pending, 10⟩] }
                    markProcessed f db2 eid
          else if body.objectType = some "activity"
              ∧ body.aspectType = some "delete" then
            if f.deleteActivityFails then (caughtResponse, db1)
            else
              let db2 := { db1 with activities :=
                db1.activities.filter (fun a => decide (some a ≠ body.objectId)) }
              markProcessed f db2 eid
          else markProcessed f db1 eid
      else (invalidResponse, db)

/-- A fault assignment where no statement throws. -/
def noFaults : WebhookFaults := ⟨false, false, false, false, false⟩

/-- A create notification for activity 555 owned by athlete 99. -/
def sampleCreateBody : WebhookBody :=
  ⟨some "activity", some 555, some "create", some 99, some 1, some 1700000000⟩

/-- An empty database: no users are known. -/
def emptyWebhookDb : WebhookDb := ⟨7, [], [], [], []⟩

/-! ## Route geometry (src/utils/polyline.ts)

Coordinates carry rational latitude/longitude; the Haversine distance
applies transcendental functions to them and is therefore valued in ℝ. -/

/-- A decoded path point. -/
structure Coordinate where
  lat : ℚ
  lng : ℚ
deriving DecidableEq, Repr

/-- JS Math.atan2(y, x). -/
noncomputable def atan2 (y x : ℝ) : ℝ :=
  if 0 < x then Real.arctan (y / x)
  else if x < 0 ∧ 0 ≤ y then Real.arctan (y / x) + Real.pi
  else if x < 0 ∧ y < 0 then Real.arctan (y / x) - Real.pi
  else if x = 0 ∧ 0 < y then Real.pi / 2
  else if x = 0 ∧ y < 0 then -(Real.pi / 2)
  else 0

/-- calculateDistance: the Haversine great-circle distance in metres with
    Earth radius 6371e3. -/
noncomputable def calculateDistance (c1 c2 : Coordinate) : ℝ :=
  let R : ℝ := 6371000
  let phi1 := (c1.lat : ℝ) * Real.pi / 180
  let phi2 := (c2.lat : ℝ) * Real.pi / 180
  let dPhi := ((c2.lat - c1.lat : ℚ) : ℝ) * Real.pi / 180
  let dLam := ((c2.lng - c1.lng : ℚ) : ℝ) * Real.pi / 180
  let a := Real.sin (dPhi / 2) * Real.sin (dPhi / 2) +
    Real.cos phi1 * Real.cos phi2 * Real.sin (dLam / 2) * Real.sin (dLam / 2)
  let c := 2 * atan2 (Real.sqrt a) (Real.sqrt (1 - a))
  R * c

/-- The distances array of getCoordinateAtPercentage, from index 1 on:
    each path point after the first paired with the cumulative distance up
    to it and its index. -/
noncomputable def cumulativeSegments (prev : Coordinate) (acc : ℝ) (i : Nat) :
    List Coordinate → List (ℝ × Coordinate × Nat)
  | [] => []
  | c :: rest =>
      (acc + calculateDistance prev c, c, i) ::
        cumulativeSegments c (acc + calculateDistance prev c) (i + 1) rest

/-- The scan of getCoordinateAtPercentage: the first entry (scanning from
    index 1) whose cumulative distance is ≥ the target distance. -/
noncomputable def findSegment (target : ℝ) :
    List (ℝ × Coordinate × Nat) → Option (Coordinate × Nat)
  | [] => none
  | (dc, c, i) :: rest =>
      if target ≤ dc then some (c, i) else findSegment target rest

open Classical in
/-- getCoordinateAtPercentage: null on an empty path or a percentage
    outside [0,1]; otherwise walk the cumulative Haversine distances from
    index 1 for the first one ≥ percentage × total distance, falling back
    to the last path point. -/
noncomputable def getCoordinateAtPercentage (coords : List Coordinate)
    (percentage : ℚ) : Option (Coordinate × Nat) :=
  if coords.isEmpty ∨ percentage < 0 ∨ 1 < percentage then none
  else
    match coords with
    | [] => none
    | c0 :: rest =>
        let segs := cumulativeSegments c0 0 1 rest
        let total := (segs.map (fun e => e.1)).getLastD 0
        let target := total * (percentage : ℝ)
        match findSegment target segs with
        | some r => some r
        | none =>
            some ((c0 :: rest).getLast (List.cons_ne_nil c0 rest),
                  (c0 :: rest).length - 1)

/-! ## Song mapper (src/utils/songMapper.ts) -/

/-- One recently-played song: track identity and played_at timestamp in
    epoch milliseconds (new Date(song.played_at).getTime()). -/
structure PlayedSong where
  trackId : String
  playedAtMs : ℚ
deriving DecidableEq, Repr

/-- One Strava split: metres covered and seconds elapsed. -/
structure SplitMetric where
  distance : ℚ
  elapsed_time : ℚ
deriving DecidableEq, Repr

/-- A song mapped onto the route. -/
structure SongWithLocation where
  song : PlayedSong
  percentage_complete : ℚ
  coordinate : Option Coordinate
  coordinate_index : Option Nat
deriving DecidableEq, Repr

/-- Total distance over all splits, computed first by
    calculatePercentageWithSplits. -/
def splitsTotalDistance (splits : List SplitMetric) : ℚ :=
  (splits.map SplitMetric.distance).sum

/-- The split-walking loop of calculatePercentageWithSplits: accumulate
    elapsed time until the split containing the song's elapsed-time
    offset; inside it, interpolate the split's distance linearly by time
    and divide the cumulative distance by the total; past all splits the
    completion is 1. -/
def splitWalk (elapsedSeconds total : ℚ) :
    ℚ → ℚ → List SplitMetric → ℚ
  | _, _, [] => 1
  | cumTime, cumDist, split :: rest =>
      let cumTime' := cumTime + split.elapsed_time
      if elapsedSeconds ≤ cumTime' then
        let timeIntoSplit := elapsedSeconds - (cumTime' - split.elapsed_time)
        let percentageOfSplit := timeIntoSplit / split.elapsed_time
        let distanceIntoSplit := split.distance * percentageOfSplit
        (cumDist + distanceIntoSplit) / total
      else splitWalk elapsedSeconds total cumTime' (cumDist + split.distance) rest

/-- calculatePercentageWithSplits(songTimestamp, runStartMs, splits). -/
def calculatePercentageWithSplits (songTimestamp runStartMs : ℚ)
    (splits : List SplitMetric) : ℚ :=
  splitWalk ((songTimestamp - runStartMs) / 1000) (splitsTotalDistance splits)
    0 0 splits

/-- The body of the mapping loop for one song that passed the window
    filter: the clamped uniform fraction, replaced — when splits are
    supplied — by the split-aware fraction, and the coordinate lookup. -/
noncomputable def mapOneSong (runStartMs runDuration : ℚ)
    (coordinates : List Coordinate) (splits : List SplitMetric)
    (song : PlayedSong) : SongWithLocation :=
  let songTimestamp := song.playedAtMs
  let pct0 := max 0 (min 1 ((songTimestamp - runStartMs) / (runDuration * 1000)))
  let pct :=
    if 0 < splits.length then
      calculatePercentageWithSplits songTimestamp runStartMs splits
    else pct0
  let result := getCoordinateAtPercentage coordinates pct
  ⟨song, pct, result.map Prod.fst, result.map Prod.snd⟩

/-- mapSongsToRoute: songs played strictly before the run start or
    strictly after the run end are filtered out; the rest are mapped in
    order. -/
noncomputable def mapSongsToRoute (songs : List PlayedSong)
    (runStartMs runDuration : ℚ) (coordinates : List Coordinate)
    (splits : List SplitMetric) : List SongWithLocation :=
  let runEndMs := runStartMs + runDuration * 1000
  songs.filterMap (fun song =>
    if song.playedAtMs < runStartMs then none
    else if runEndMs < song.playedAtMs then none
    else some (mapOneSong runStartMs runDuration coordinates splits song))

/-! ## The activity job body (processActivityJob in src/lib/jobProcessor.ts)

The error-relevant core of processActivityJob after the activity has been
fetched: the activity-type skip, the missing-polyline skip, the
empty-decode error, and the call into the mapper.  The decoded coordinate
list stands for decodePolyline(polyline), which yields [] both for an
empty path and for an undecodable string. -/

/-- What the job body produces when it does not throw. -/
inductive ActivityOutcome where
  | skippedNotRun
  | skippedNoPolyline
  | mapped (songs : List SongWithLocation)
deriving DecidableEq

/-- The check-and-map sequence of processActivityJob. -/
noncomputable def processActivityCore (activityType : String)
    (polyline summaryPolyline : Option String) (decoded : List Coordinate)
    (startMs elapsedTime : ℚ) (songs : List PlayedSong)
    (splits : List SplitMetric) : Except String ActivityOutcome :=
  if activityType ≠ "Run" ∧ activityType ≠ "VirtualRun" then
    Except.ok ActivityOutcome.skippedNotRun
  else if ¬ truthyStr polyline ∧ ¬ truthyStr summaryPolyline then
    Except.ok ActivityOutcome.skippedNoPolyline
  else if decoded.length = 0 then Except.error "Failed to decode polyline"
  else
    Except.ok (ActivityOutcome.mapped
      (mapSongsToRoute songs startMs elapsedTime decoded splits))

/-! ## Token lifecycle (src/lib/tokenManager.ts)

The auth_tokens row for one (user, provider) pair, the provider's refresh
call as a fallible operation, and ensureValidToken/getValidToken as pure
functions of the stored credential and the current time.  The returned
Option AuthToken is the UPDATE the function performs (none = no write). -/

/-- One auth_tokens row: access token, nullable refresh token, expiry in
    epoch milliseconds. -/
structure AuthToken where
  accessToken : String
  refreshToken : Option String
  expiresAtMs : Int
deriving DecidableEq, Repr

/-- The provider's refresh response: new access token, validity in
    seconds, and an optional new refresh token. -/
structure SpotifyTokenResponse where
  access_token : String
  expires_in : Int
  refresh_token : Option String
deriving DecidableEq, Repr

/-- The TokenRefreshResult returned by ensureValidToken. -/
structure TokenRefreshResult where
  accessToken : String
  expiresAtMs : Int
deriving DecidableEq, Repr

/-- ensureValidToken: null when no credential row exists; the cached
    access token unchanged (no write) while the stored expiry is beyond
    the 5-minute buffer; otherwise refresh with the stored refresh token
    (throwing when it is absent or the provider rejects), persist the new
    access token, COALESCE(new refresh token, old refresh token) and the
    new expiry now + expires_in seconds, and return the new token. -/
def ensureValidToken (nowMs : Int) (cred : Option AuthToken)
    (refreshOp : String → Except String SpotifyTokenResponse) :
    Except String (Option (TokenRefreshResult × Option AuthToken)) :=
  match cred with
  | none => Except.ok none
  | some tokenData =>
      let fiveMinutesFromNow := nowMs + 5 * 60 * 1000
      if fiveMinutesFromNow < tokenData.expiresAtMs then
        Except.ok (some (⟨tokenData.accessToken, tokenData.expiresAtMs⟩, none))
      else
        match tokenData.refreshToken with
        | none => Except.error "No refresh token available"
        | some rt =>
            match refreshOp rt with
            | Except.error e => Except.error e
            | Except.ok newTokenData =>
                let newExpiresAt := nowMs + newTokenData.expires_in * 1000
                Except.ok (some
                  (⟨newTokenData.access_token, newExpiresAt⟩,
                   some ⟨newTokenData.access_token,
                     some (newTokenData.refresh_token.getD rt),
                     newExpiresAt⟩))

/-- getValidToken: the access token of ensureValidToken's result,
    throwing when no credential row exists. -/
def getValidToken (nowMs : Int) (cred : Option AuthToken)
    (refreshOp : String → Except String SpotifyTokenResponse) :
    Except String String :=
  match ensureValidToken nowMs cred refreshOp with
  | Except.error e => Except.error e
  | Except.ok none => Except.error "No token found for user"
  | Except.ok (some (r, _)) => Except.ok r.accessToken

/-! ### Geometry lemmas and claim C7

The 5-point straight-line path lies on a meridian with one degree of
latitude between consecutive points, so all four Haversine segment
lengths are exactly equal (to 6371000·π/180 metres). -/

/-- A 5-point straight-line path: latitudes 0..4 on longitude 0. -/
def path5 : List Coordinate := [⟨0, 0⟩, ⟨1, 0⟩, ⟨2, 0⟩, ⟨3, 0⟩, ⟨4, 0⟩]

/-! ### Auxiliary lemmas about the queue operations -/

lemma jobOrder_trans (a b c : Job) (hab : jobOrder a b = true)
    (hbc : jobOrder b c = true) : jobOrder a c = true := by
  simp only [jobOrder, decide_eq_true_eq] at *
  omega

lemma jobOrder_total (a b : Job) : (jobOrder a b || jobOrder b a) = true := by
  simp only [jobOrder, Bool.or_eq_true, decide_eq_true_eq]
  omega

lemma lockJob_of_no_claimable (now : Int) (db : JobDb) (jobId : Nat)
    (h : ∀ j ∈ db, j.id = jobId → ¬ claimable j) :
    lockJob now db jobId = (none, db) := by
  have hfind :
      db.find? (fun j => decide (j.id = jobId) && decide (claimable j)) = none := by
    rw [List.find?_eq_none]
    intro j hj
    simp only [Bool.and_eq_true, decide_eq_true_eq, not_and]
    intro hid
    exact h j hj hid
  simp [lockJob, hfind]

lemma mem_updateJob (db : JobDb) (jobId : Nat) (f : Job → Job) (j' : Job)
    (hmem : j' ∈ updateJob db jobId f) (hid : j'.id = jobId) :
    ∃ k ∈ db, k.id = jobId ∧ j' = f k := by
  simp only [updateJob, List.mem_map] at hmem
  obtain ⟨k, hk, hkeq⟩ := hmem
  by_cases hkid : k.id = jobId
  · exact ⟨k, hk, hkid, by simpa [hkid] using hkeq.symm⟩
  · rw [if_neg hkid] at hkeq
    exact absurd (hkeq ▸ hid) hkid

lemma lockJob_some (now : Int) (db : JobDb) (jobId : Nat) (r : Job) (db' : JobDb)
    (h : lockJob now db jobId = (some r, db')) :
    r.status = JobStatus.processing
    ∧ (∃ j ∈ db, j.id = jobId ∧ claimable j ∧ r.attempts = j.attempts + 1)
    ∧ (∀ k ∈ db', k.id = jobId → ¬ claimable k) := by
  unfold lockJob at h
  cases hfind : db.find? (fun j => decide (j.id = jobId ∧ claimable j)) with
  | none => rw [hfind] at h; exact absurd (congrArg Prod.fst h) (by simp)
  | some j =>
      rw [hfind] at h
      have hpj := List.find?_some hfind
      have hmemj := List.mem_of_find?_eq_some hfind
      simp only [decide_eq_true_eq] at hpj
      have hr : r = { j with status := JobStatus.processing,
                             startedAt := some now,
                             attempts := j.attempts + 1 } := by
        have := congrArg Prod.fst h
        simpa using this.symm
      have hdb' : db' =
          db.map (fun k => if k.id = jobId ∧ claimable k then
            { j with status := JobStatus.processing, startedAt := some now,
                     attempts := j.attempts + 1 } else k) := by
        have := congrArg Prod.snd h
        simpa using this.symm
      refine ⟨by simp [hr], ⟨j, hmemj, hpj.1, hpj.2, by simp [hr]⟩, ?_⟩
      intro k hk hkid
      rw [hdb'] at hk
      simp only [List.mem_map] at hk
      obtain ⟨k0, hk0, hkeq⟩ := hk
      by_cases hc : k0.id = jobId ∧ claimable k0
      · rw [if_pos hc] at hkeq
        rw [← hkeq]
        simp [claimable]
      · rw [if_neg hc] at hkeq
        rw [← hkeq]
        intro hcl
        exact hc ⟨hkeq ▸ hkid, hcl⟩

/-! ### Claim theorems for the job queue -/

/-- C1 counterexample.  A job with max_retries 3 whose work always throws:
    the claim predicts that the third failure (attempt 3) is scheduled for
    retry with an 8-minute backoff and that only the fourth failure is
    terminal.  The code instead marks the job failed on the third failure
    (attempts = 3 is not < max_retries = 3), so the 8-minute delay never
    occurs. -/
theorem claim_C1_counterexample :
    (processJob 20 failingWork
        (processJob 10 failingWork (processJob 0 failingWork [sampleJob] 1) 1)
        1).map Job.status = [JobStatus.failed]
    ∧ ¬ ((processJob 20 failingWork
        (processJob 10 failingWork (processJob 0 failingWork [sampleJob] 1) 1)
        1).map Job.status = [JobStatus.retry]) := by
  constructor <;> decide

/-- C1 (amended): for a job with max attempts 3 whose execution raises an
    error, failOrRetry sets status retry with visibility now + 2^attempts
    minutes, producing delays of 2 and 4 minutes after attempts 1 and 2;
    the 3rd failure is terminal: status failed with the error recorded. -/
theorem claim_C1_backoff (t1 t2 t3 p sf : Int) (e : String)
    (em : Option String) (sa ca : Option Int) :
    processJob t1 (fun _ => Except.error e)
        [⟨1, "process_activity", JobStatus.pending, p, 0, 3, em, sf, sa, ca⟩] 1
      = [⟨1, "process_activity", JobStatus.retry, p, 1, 3, some e, t1 + 2,
          some t1, ca⟩]
    ∧ processJob t2 (fun _ => Except.error e)
        [⟨1, "process_activity", JobStatus.retry, p, 1, 3, some e, t1 + 2,
          some t1, ca⟩] 1
      = [⟨1, "process_activity", JobStatus.retry, p, 2, 3, some e, t2 + 4,
          some t2, ca⟩]
    ∧ processJob t3 (fun _ => Except.error e)
        [⟨1, "process_activity", JobStatus.retry, p, 2, 3, some e, t2 + 4,
          some t2, ca⟩] 1
      = [⟨1, "process_activity", JobStatus.failed, p, 3, 3, some e, t2 + 4,
          some t3, ca⟩] := by
  refine ⟨?_, ?_, ?_⟩ <;>
    simp [processJob, lockJob, failOrRetry, updateJob, claimable, List.find?]

/-- C2: the selection query returns at most limit rows, each pending or
    retry and already visible, ordered by priority descending then
    visibility ascending; the claim itself is a conditional update keyed
    on status, so a claimant that finds no pending/retry row with that id
    matches zero rows and leaves the table unchanged, a successful claim
    moves the row to processing with attempts incremented by exactly one,
    and after a successful claim any further claim attempt on the same id
    matches zero rows. -/
theorem claim_C2_atomic_claim (now : Int) (limit : Nat) (db : JobDb)
    (jobId : Nat) :
    (∀ j ∈ selectPendingJobs now limit db, claimable j ∧ j.scheduledFor ≤ now)
    ∧ (selectPendingJobs now limit db).length ≤ limit
    ∧ List.Pairwise (fun a b => jobOrder a b = true)
        (selectPendingJobs now limit db)
    ∧ ((∀ j ∈ db, j.id = jobId → ¬ claimable j) →
        lockJob now db jobId = (none, db))
    ∧ (∀ r db', lockJob now db jobId = (some r, db') →
        r.status = JobStatus.processing
        ∧ (∃ j ∈ db, j.id = jobId ∧ claimable j ∧ r.attempts = j.attempts + 1)
        ∧ ∀ now', lockJob now' db' jobId = (none, db')) := by
  refine ⟨?_, ?_, ?_, ?_, ?_⟩
  · intro j hj
    have hj' := (List.take_subset _ _) hj
    have hj'' := ((List.mergeSort_perm _ _).mem_iff).mp hj'
    have := List.mem_filter.mp hj''
    simpa using this.2
  · exact List.length_take_le _ _
  · have hs := @List.sorted_mergeSort Job jobOrder jobOrder_trans
      jobOrder_total (db.filter (fun j => decide (claimable j ∧ j.scheduledFor ≤ now)))
    exact List.Pairwise.take hs
  · exact lockJob_of_no_claimable now db jobId
  · intro r db' hlock
    obtain ⟨h1, h2, h3⟩ := lockJob_some now db jobId r db' hlock
    exact ⟨h1, h2, fun now' => lockJob_of_no_claimable now' db' jobId h3⟩

/-- C4: once a job is claimed, processJob never leaves it in status
    processing: on success of the work it is marked completed, and on any
    thrown error the catch block marks it retry or failed with the error
    recorded. -/
theorem claim_C4_always_finalized (now : Int) (work : Job → Except String Unit)
    (db : JobDb) (jobId : Nat) (r : Job) (db' : JobDb)
    (hlock : lockJob now db jobId = (some r, db'))
    (j' : Job) (hmem : j' ∈ processJob now work db jobId)
    (hid : j'.id = jobId) :
    j'.status ≠ JobStatus.processing
    ∧ (r.jobType = "process_activity" → work r = Except.ok () →
        j'.status = JobStatus.completed)
    ∧ (∀ e, r.jobType = "process_activity" → work r = Except.error e →
        (j'.status = JobStatus.retry ∨ j'.status = JobStatus.failed)
        ∧ j'.errorMessage = some e) := by
  simp only [processJob, hlock] at hmem
  have hcomplete : ∀ (t : Int), j' ∈ completeJob t db' jobId →
      j'.status = JobStatus.completed := by
    intro t hm
    obtain ⟨k, _, _, hk⟩ := mem_updateJob db' jobId _ j' hm hid
    rw [hk]
  have hfail : ∀ (t : Int) (e : String), j' ∈ failOrRetry t db' jobId e →
      (j'.status = JobStatus.retry ∨ j'.status = JobStatus.failed)
      ∧ j'.errorMessage = some e := by
    intro t e hm
    cases hfind : db'.find? (fun j => decide (j.id = jobId)) with
    | none =>
        simp only [failOrRetry, hfind] at hm
        have := List.find?_eq_none.mp hfind j' hm
        simp [hid] at this
    | some j =>
        simp only [failOrRetry, hfind] at hm
        by_cases hretry : j.attempts < j.maxRetries
        · rw [if_pos hretry] at hm
          obtain ⟨k, _, _, hk⟩ := mem_updateJob db' jobId _ j' hm hid
          rw [hk]
          exact ⟨Or.inl rfl, rfl⟩
        · rw [if_neg hretry] at hm
          obtain ⟨k, _, _, hk⟩ := mem_updateJob db' jobId _ j' hm hid
          rw [hk]
          exact ⟨Or.inr rfl, rfl⟩
  by_cases htype : r.jobType = "process_activity"
  · rw [if_pos htype] at hmem
    cases hwork : work r with
    | ok u =>
        rw [hwork] at hmem
        have hc := hcomplete now hmem
        refine ⟨?_, fun _ _ => hc, ?_⟩
        · rw [hc]
          intro hcontra
          cases hcontra
        · intro e' _ hcontra
          exact Except.noConfusion hcontra
    | error e =>
        rw [hwork] at hmem
        have hf := hfail now e hmem
        refine ⟨?_, ?_, ?_⟩
        · rcases hf.1 with h | h <;> rw [h] <;> intro hcontra <;> cases hcontra
        · intro _ hcontra
          exact Except.noConfusion hcontra
        · intro e' _ he'
          injection he' with he''
          subst he''
          exact hf
  · rw [if_neg htype] at hmem
    have hf := hfail now _ hmem
    refine ⟨?_, fun ht _ => absurd ht htype, fun e ht _ => absurd ht htype⟩
    rcases hf.1 with h | h <;> rw [h] <;> intro hcontra <;> cases hcontra

/-- C2 witness: a claimant that arrives at a row already in status
    processing matches zero rows and leaves the table unchanged. -/
theorem claim_C2_witness :
    lockJob 5 [sampleLocked] 1 = (none, [sampleLocked]) :=
  (claim_C2_atomic_claim 5 10 [sampleLocked] 1).2.2.2.1 (by decide)

/-- C4 witness: a claimed job whose work throws ends in retry or failed
    with the error recorded, never in processing. -/
theorem claim_C4_witness :
    sampleRetried.status ≠ JobStatus.processing
    ∧ (sampleLocked.jobType = "process_activity" →
        failingWork sampleLocked = Except.ok () →
        sampleRetried.status = JobStatus.completed)
    ∧ (∀ e, sampleLocked.jobType = "process_activity" →
        failingWork sampleLocked = Except.error e →
        (sampleRetried.status = JobStatus.retry
          ∨ sampleRetried.status = JobStatus.failed)
        ∧ sampleRetried.errorMessage = some e) :=
  claim_C4_always_finalized 0 failingWork [sampleJob] 1 sampleLocked
    [sampleLocked] (by decide) sampleRetried (by decide) (by decide)

/-! ### Claim theorems for the webhook handler -/

/-- C3 counterexample.  A create notification whose owner resolves to no
    known user: the handler writes the audit row, returns success and
    creates no job — but, contrary to the claim, it returns before the
    processed update, so the stored event keeps processed = false. -/
theorem claim_C3_counterexample :
    (webhookPost noFaults (some sampleCreateBody) emptyWebhookDb).1 = okResponse
    ∧ (webhookPost noFaults (some sampleCreateBody) emptyWebhookDb).2.jobs = []
    ∧ (webhookPost noFaults (some sampleCreateBody) emptyWebhookDb).2.events.map
        WebhookEventRow.processed = [false] := by
  refine ⟨?_, ?_, ?_⟩ <;> decide

/-- C3 (amended): a create notification for an activity whose owner
    external id resolves to no known user makes the handler write the
    WebhookEvent audit row and return success without creating any Job,
    but the event is left with processed = false: the early return skips
    the processed update. -/
theorem claim_C3_unknown_owner (f : WebhookFaults) (body : WebhookBody)
    (db : WebhookDb)
    (hvalid : validEvent body = true)
    (hobj : body.objectType = some "activity")
    (hasp : body.aspectType = some "create")
    (hnouser : ∀ u ∈ db.users, ¬ some u.2 = body.ownerId)
    (hf1 : f.insertEventFails = false)
    (hf2 : f.selectUserFails = false) :
    webhookPost f (some body) db =
      (okResponse,
       { db with
           nextEventId := db.nextEventId + 1,
           events := db.events ++
             [⟨db.nextEventId, body.subscriptionId, body.objectType,
               body.objectId, body.aspectType, body.ownerId, body.eventTime,
               false⟩] }) := by
  have hfind :
      db.users.find? (fun u => decide (some u.2 = body.ownerId)) = none := by
    rw [List.find?_eq_none]
    intro u hu
    simpa using hnouser u hu
  simp [webhookPost, hvalid, hobj, hasp, hf1, hf2, hfind]

/-- C3 witness: the amended behaviour at a concrete notification against
    a database with no users. -/
theorem claim_C3_witness :
    webhookPost noFaults (some sampleCreateBody) emptyWebhookDb =
      (okResponse,
       { emptyWebhookDb with
           nextEventId := 8,
           events := [⟨7, some 1, some "activity", some 555, some "create",
                       some 99, some 1700000000, false⟩] }) :=
  claim_C3_unknown_owner noFaults sampleCreateBody emptyWebhookDb
    (by decide) (by decide) (by decide) (by decide) (by decide) (by decide)

lemma markProcessed_resp (f : WebhookFaults) (db : WebhookDb) (eid : Nat) :
    (markProcessed f db eid).1 = okResponse
    ∨ (markProcessed f db eid).1 = caughtResponse := by
  unfold markProcessed
  split_ifs <;> simp

lemma webhookPost_valid_resp (f : WebhookFaults) (body : WebhookBody)
    (db : WebhookDb) (hvalid : validEvent body = true) :
    (webhookPost f (some body) db).1 = okResponse
    ∨ (webhookPost f (some body) db).1 = caughtResponse := by
  unfold webhookPost
  simp only [hvalid, if_true]
  repeat' first
    | exact Or.inl rfl
    | exact Or.inr rfl
    | exact markProcessed_resp _ _ _
    | split_ifs
    | split

/-- C10: the webhook POST handler never answers with an error status for
    an exception.  A failed body parse and a failed audit insert each hit
    the catch block, which answers 200 with success false and leaves the
    database untouched; every response is one of the success response,
    the catch response and the 400 validation response; and the 400
    response occurs exactly when the body parsed but a required field is
    missing (in which case nothing is written). -/
theorem claim_C10_catch_all (f : WebhookFaults) (parsed : Option WebhookBody)
    (db : WebhookDb) :
    (parsed = none → webhookPost f parsed db = (caughtResponse, db))
    ∧ (∀ body, parsed = some body → validEvent body = true →
        f.insertEventFails = true →
        webhookPost f parsed db = (caughtResponse, db))
    ∧ ((webhookPost f parsed db).1 = okResponse
        ∨ (webhookPost f parsed db).1 = caughtResponse
        ∨ (webhookPost f parsed db).1 = invalidResponse)
    ∧ ((webhookPost f parsed db).1.status = 400 ↔
        ∃ body, parsed = some body ∧ validEvent body = false)
    ∧ ((webhookPost f parsed db).1.status = 400 →
        webhookPost f parsed db = (invalidResponse, db)) := by
  refine ⟨?_, ?_, ?_, ?_, ?_⟩
  · intro h
    rw [h]
    rfl
  · intro body hp hv hf
    rw [hp]
    simp [webhookPost, hv, hf]
  · cases parsed with
    | none => simp [webhookPost]
    | some body =>
        by_cases hv : validEvent body = true
        · rcases webhookPost_valid_resp f body db hv with h | h <;> simp [h]
        · simp only [Bool.not_eq_true] at hv
          simp [webhookPost, hv]
  · cases parsed with
    | none => simp [webhookPost, caughtResponse]
    | some body =>
        by_cases hv : validEvent body = true
        · rcases webhookPost_valid_resp f body db hv with h | h <;>
            simp [h, okResponse, caughtResponse, hv]
        · simp only [Bool.not_eq_true] at hv
          simp [webhookPost, hv, invalidResponse]
  · intro h400
    cases parsed with
    | none => simp [webhookPost, caughtResponse] at h400
    | some body =>
        by_cases hv : validEvent body = true
        · rcases webhookPost_valid_resp f body db hv with h | h <;>
            rw [h] at h400 <;> simp [okResponse, caughtResponse] at h400
        · simp only [Bool.not_eq_true] at hv
          simp [webhookPost, hv]

/-- C10 witness: a failing audit insert on a valid body answers 200 with
    success false and writes nothing. -/
theorem claim_C10_witness :
    webhookPost ⟨true, false, false, false, false⟩ (some sampleCreateBody)
        emptyWebhookDb = (caughtResponse, emptyWebhookDb) :=
  (claim_C10_catch_all ⟨true, false, false, false, false⟩
      (some sampleCreateBody) emptyWebhookDb).2.1 sampleCreateBody rfl
    (by decide) (by decide)

/-! ### Auxiliary lemmas about the song mapper -/

lemma mapSongsToRoute_eq_map_filter (songs : List PlayedSong)
    (start dur : ℚ) (coords : List Coordinate) (splits : List SplitMetric) :
    mapSongsToRoute songs start dur coords splits
      = (songs.filter (fun s =>
          decide (start ≤ s.playedAtMs)
            && decide (s.playedAtMs ≤ start + dur * 1000))).map
          (mapOneSong start dur coords splits) := by
  induction songs with
  | nil => rfl
  | cons s rest ih =>
      simp only [mapSongsToRoute, List.filterMap_cons, List.filter_cons] at *
      by_cases h1 : s.playedAtMs < start
      · have h1' : ¬ start ≤ s.playedAtMs := not_le.mpr h1
        simp [h1, h1', ih]
      · by_cases h2 : start + dur * 1000 < s.playedAtMs
        · have h2' : ¬ s.playedAtMs ≤ start + dur * 1000 := not_le.mpr h2
          simp [h1, h2, h2', not_lt.mp h1, ih]
        · simp [h1, h2, not_lt.mp h1, not_lt.mp h2, ih]

lemma splitWalk_bounds (elapsed total : ℚ) (splits : List SplitMetric)
    (cumTime cumDist : ℚ)
    (hsp : ∀ sp ∈ splits, 0 ≤ sp.distance ∧ 0 < sp.elapsed_time)
    (htotal : 0 < total) (hcumDist : 0 ≤ cumDist)
    (hcumTime : cumTime ≤ elapsed)
    (hsum : cumDist + (splits.map SplitMetric.distance).sum ≤ total) :
    0 ≤ splitWalk elapsed total cumTime cumDist splits
    ∧ splitWalk elapsed total cumTime cumDist splits ≤ 1 := by
  induction splits generalizing cumTime cumDist with
  | nil => simp [splitWalk]
  | cons sp rest ih =>
      obtain ⟨hd, ht⟩ := hsp sp (List.mem_cons_self sp rest)
      have hrest : 0 ≤ (rest.map SplitMetric.distance).sum :=
        List.sum_nonneg (by
          intro x hx
          obtain ⟨sp', hsp', hx'⟩ := List.mem_map.mp hx
          exact hx' ▸ (hsp sp' (List.mem_cons_of_mem sp hsp')).1)
      simp only [splitWalk]
      by_cases hc : elapsed ≤ cumTime + sp.elapsed_time
      · rw [if_pos hc]
        have htime0 : 0 ≤ elapsed - (cumTime + sp.elapsed_time - sp.elapsed_time) := by
          linarith
        have htime1 : elapsed - (cumTime + sp.elapsed_time - sp.elapsed_time)
            ≤ sp.elapsed_time := by linarith
        have hpct0 : 0 ≤ (elapsed - (cumTime + sp.elapsed_time - sp.elapsed_time))
            / sp.elapsed_time := div_nonneg htime0 (le_of_lt ht)
        have hpct1 : (elapsed - (cumTime + sp.elapsed_time - sp.elapsed_time))
            / sp.elapsed_time ≤ 1 := (div_le_one ht).mpr htime1
        have hdist0 : 0 ≤ sp.distance *
            ((elapsed - (cumTime + sp.elapsed_time - sp.elapsed_time)) / sp.elapsed_time) :=
          mul_nonneg hd hpct0
        have hdist1 : sp.distance *
            ((elapsed - (cumTime + sp.elapsed_time - sp.elapsed_time)) / sp.elapsed_time)
            ≤ sp.distance := by
          calc sp.distance * ((elapsed - (cumTime + sp.elapsed_time - sp.elapsed_time))
                / sp.elapsed_time)
              ≤ sp.distance * 1 := mul_le_mul_of_nonneg_left hpct1 hd
            _ = sp.distance := mul_one _
        have hnum1 : cumDist + sp.distance *
            ((elapsed - (cumTime + sp.elapsed_time - sp.elapsed_time)) / sp.elapsed_time)
            ≤ total := by
          have hmap : (sp :: rest).map SplitMetric.distance
              = sp.distance :: rest.map SplitMetric.distance := rfl
          rw [hmap, List.sum_cons] at hsum
          linarith
        constructor
        · exact div_nonneg (by linarith) (le_of_lt htotal)
        · exact (div_le_one htotal).mpr hnum1
      · rw [if_neg hc]
        have hc' : cumTime + sp.elapsed_time ≤ elapsed := le_of_not_le hc
        have hsum' : cumDist + sp.distance + (rest.map SplitMetric.distance).sum ≤ total := by
          have hmap : (sp :: rest).map SplitMetric.distance
              = sp.distance :: rest.map SplitMetric.distance := rfl
          rw [hmap, List.sum_cons] at hsum
          linarith
        exact ih (cumTime + sp.elapsed_time) (cumDist + sp.distance)
          (fun s hs => hsp s (List.mem_cons_of_mem sp hs))
          (by linarith) hc' hsum'

lemma calculatePercentageWithSplits_bounds (t start : ℚ) (splits : List SplitMetric)
    (hts : start ≤ t)
    (hsp : ∀ sp ∈ splits, 0 ≤ sp.distance ∧ 0 < sp.elapsed_time)
    (htotal : 0 < splitsTotalDistance splits) :
    0 ≤ calculatePercentageWithSplits t start splits
    ∧ calculatePercentageWithSplits t start splits ≤ 1 := by
  unfold calculatePercentageWithSplits
  exact splitWalk_bounds ((t - start) / 1000) (splitsTotalDistance splits) splits 0 0
    hsp htotal le_rfl
    (div_nonneg (by linarith) (by norm_num))
    (by simp [splitsTotalDistance])

/-! ### Claim theorems for the song mapper -/

/-- C5: the time-window filter is inclusive on both ends: the mapped
    songs are exactly those with runStart ≤ playedAt ≤ runStart +
    duration·1000, in order; and (without splits) a song at exactly the
    window start is recorded with fraction 0, one at exactly the window
    end with fraction 1. -/
theorem claim_C5_window_filter (songs : List PlayedSong) (start dur : ℚ)
    (coords : List Coordinate) (splits : List SplitMetric) (hdur : 0 < dur) :
    (mapSongsToRoute songs start dur coords splits).map SongWithLocation.song
      = songs.filter (fun s =>
          decide (start ≤ s.playedAtMs)
            && decide (s.playedAtMs ≤ start + dur * 1000))
    ∧ (∀ m ∈ mapSongsToRoute songs start dur coords [],
        (m.song.playedAtMs = start → m.percentage_complete = 0)
        ∧ (m.song.playedAtMs = start + dur * 1000 →
            m.percentage_complete = 1)) := by
  constructor
  · rw [mapSongsToRoute_eq_map_filter, List.map_map]
    have hcomp : SongWithLocation.song ∘ mapOneSong start dur coords splits
        = id := by
      funext s
      rfl
    rw [hcomp, List.map_id]
  · intro m hm
    rw [mapSongsToRoute_eq_map_filter] at hm
    obtain ⟨s, hs, hm'⟩ := List.mem_map.mp hm
    subst hm'
    constructor
    · intro hts
      simp only [mapOneSong] at hts ⊢
      simp [hts]
    · intro hts
      simp only [mapOneSong] at hts ⊢
      have hne : dur * 1000 ≠ 0 := by positivity
      simp [hts, div_self hne]

/-- C5 witness: a window of 10 seconds starting at epoch-ms 0, with one
    song at each boundary and one just outside each boundary. -/
theorem claim_C5_witness :
    (0 : ℚ) < 10
    ∧ ((mapSongsToRoute [⟨"a", 0⟩, ⟨"b", 10000⟩, ⟨"c", -1000⟩, ⟨"d", 11000⟩]
          0 10 [] []).map SongWithLocation.song
        = ([⟨"a", 0⟩, ⟨"b", 10000⟩, ⟨"c", -1000⟩, ⟨"d", 11000⟩] :
            List PlayedSong).filter (fun s =>
              decide ((0 : ℚ) ≤ s.playedAtMs)
                && decide (s.playedAtMs ≤ 0 + 10 * 1000))
      ∧ (∀ m ∈ mapSongsToRoute [⟨"a", 0⟩, ⟨"b", 10000⟩, ⟨"c", -1000⟩,
            ⟨"d", 11000⟩] 0 10 [] [],
          (m.song.playedAtMs = 0 → m.percentage_complete = 0)
          ∧ (m.song.playedAtMs = 0 + 10 * 1000 →
              m.percentage_complete = 1))) :=
  ⟨by norm_num,
   claim_C5_window_filter [⟨"a", 0⟩, ⟨"b", 10000⟩, ⟨"c", -1000⟩, ⟨"d", 11000⟩]
     0 10 [] [] (by norm_num)⟩

/-- C6: every mapped song's fractional completion lies in [0,1]: the
    uniform fraction is clamped, and the split-aware replacement stays in
    [0,1] for well-formed splits (nonnegative distances, positive split
    times, positive total distance).  The positive-duration hypothesis
    excludes the zero-duration degenerate case, in which the JS fraction
    is NaN rather than a number in or out of [0,1]. -/
theorem claim_C6_fraction_in_unit (songs : List PlayedSong) (start dur : ℚ)
    (coords : List Coordinate) (splits : List SplitMetric) (hdur : 0 < dur)
    (hsp : ∀ sp ∈ splits, 0 ≤ sp.distance ∧ 0 < sp.elapsed_time)
    (htot : splits ≠ [] → 0 < splitsTotalDistance splits) :
    ∀ m ∈ mapSongsToRoute songs start dur coords splits,
      0 ≤ m.percentage_complete ∧ m.percentage_complete ≤ 1 := by
  intro m hm
  rw [mapSongsToRoute_eq_map_filter] at hm
  obtain ⟨s, hs, hm'⟩ := List.mem_map.mp hm
  have hwin := (List.mem_filter.mp hs).2
  simp only [Bool.and_eq_true, decide_eq_true_eq] at hwin
  obtain ⟨ht1, ht2⟩ := hwin
  subst hm'
  simp only [mapOneSong]
  by_cases hlen : 0 < splits.length
  · simp only [if_pos hlen]
    exact calculatePercentageWithSplits_bounds s.playedAtMs start splits ht1 hsp
      (htot (List.length_pos.mp hlen))
  · simp only [if_neg hlen]
    constructor
    · exact le_max_left 0 _
    · exact max_le (by norm_num) (min_le_left 1 _)

/-- C6 witness: a 100-second run with two splits and one in-window song;
    the mapped song's fraction lies in [0,1]. -/
theorem claim_C6_witness :
    0 ≤ (mapOneSong 0 100 [] [⟨500, 60⟩, ⟨500, 40⟩]
        ⟨"a", 30000⟩).percentage_complete
    ∧ (mapOneSong 0 100 [] [⟨500, 60⟩, ⟨500, 40⟩]
        ⟨"a", 30000⟩).percentage_complete ≤ 1 :=
  claim_C6_fraction_in_unit [⟨"a", 30000⟩] 0 100 [] [⟨500, 60⟩, ⟨500, 40⟩]
    (by norm_num)
    (by
      intro sp hmem
      simp only [List.mem_cons, List.not_mem_nil, or_false] at hmem
      rcases hmem with rfl | rfl <;> norm_num)
    (fun _ => by norm_num [splitsTotalDistance])
    (mapOneSong 0 100 [] [⟨500, 60⟩, ⟨500, 40⟩] ⟨"a", 30000⟩)
    (by
      rw [mapSongsToRoute_eq_map_filter]
      apply List.mem_map_of_mem
      simp only [List.filter_cons, List.filter_nil]
      norm_num)

/-- C8 counterexample.  A zero-duration run is not treated as an error:
    with a nonempty decoded path and a song at exactly the start instant,
    the job body returns a successful mapping (of that one song) instead
    of raising a ZeroDuration error. -/
theorem claim_C8_counterexample :
    ∃ ms, processActivityCore "Run" (some "p") none [⟨0, 0⟩, ⟨1, 0⟩] 0 0
        [⟨"t", 0⟩] [] = Except.ok (ActivityOutcome.mapped ms)
      ∧ ms.map SongWithLocation.song = [⟨"t", 0⟩] := by
  refine ⟨mapSongsToRoute [⟨"t", 0⟩] 0 0 [⟨0, 0⟩, ⟨1, 0⟩] [], ?_, ?_⟩
  · simp [processActivityCore, truthyStr]
  · simp [mapSongsToRoute, mapOneSong]

/-- C8 (amended): an empty decoded path is fatal: the job body throws
    (with message 'Failed to decode polyline'), the thrown error counts
    against the standard retry budget, and after the final attempt the
    job is failed with that reason preserved.  A zero-duration activity,
    however, is not checked anywhere: the job body proceeds to a
    successful mapping rather than raising an error. -/
theorem claim_C8_empty_path_fatal (activityType : String)
    (polyline summaryPolyline : Option String) (decoded : List Coordinate)
    (startMs dur : ℚ) (songs : List PlayedSong) (splits : List SplitMetric)
    (t p sf : Int) (em : Option String) (sa ca : Option Int)
    (hty : activityType = "Run" ∨ activityType = "VirtualRun")
    (hpl : truthyStr polyline = true) :
    (processActivityCore activityType polyline summaryPolyline [] startMs dur
        songs splits = Except.error "Failed to decode polyline")
    ∧ (processJob t (fun _ => (processActivityCore activityType polyline
          summaryPolyline [] startMs dur songs splits).map (fun _ => ()))
        [⟨1, "process_activity", JobStatus.retry, p, 2, 3, em, sf, sa, ca⟩] 1
        = [⟨1, "process_activity", JobStatus.failed, p, 3, 3,
            some "Failed to decode polyline", sf, some t, ca⟩])
    ∧ (decoded ≠ [] → ∃ ms, processActivityCore activityType polyline
          summaryPolyline decoded startMs 0 songs splits
          = Except.ok (ActivityOutcome.mapped ms)) := by
  have herr : processActivityCore activityType polyline summaryPolyline []
      startMs dur songs splits = Except.error "Failed to decode polyline" := by
    rcases hty with h | h <;> subst h <;> simp [processActivityCore, hpl]
  refine ⟨herr, ?_, ?_⟩
  · have hwork : (fun (_ : Job) => (processActivityCore activityType polyline
        summaryPolyline [] startMs dur songs splits).map
          (fun (_ : ActivityOutcome) => ()))
        = fun _ => (Except.error "Failed to decode polyline" :
            Except String Unit) := by
      funext j
      rw [herr]
      rfl
    rw [hwork]
    simp [processJob, lockJob, failOrRetry, updateJob, claimable, List.find?]
  · intro hne
    refine ⟨mapSongsToRoute songs startMs 0 decoded splits, ?_⟩
    rcases hty with h | h <;> subst h <;>
      simp [processActivityCore, hpl, List.length_eq_zero, hne]

/-- C8 witness: the amended behaviour at concrete inputs — an empty
    decode fails the third attempt terminally with the reason preserved,
    and a 2-point path with zero duration maps successfully. -/
theorem claim_C8_witness :
    (processActivityCore "Run" (some "p") none [] 0 1800 [] []
        = Except.error "Failed to decode polyline")
    ∧ (processJob 0 (fun _ => (processActivityCore "Run" (some "p") none [] 0
          1800 [] []).map (fun _ => ()))
        [⟨1, "process_activity", JobStatus.retry, 10, 2, 3, none, 0, none,
          none⟩] 1
        = [⟨1, "process_activity", JobStatus.failed, 10, 3, 3,
            some "Failed to decode polyline", 0, some 0, none⟩])
    ∧ (([⟨0, 0⟩, ⟨1, 0⟩] : List Coordinate) ≠ [] →
        ∃ ms, processActivityCore "Run" (some "p") none [⟨0, 0⟩, ⟨1, 0⟩] 0 0
          [] [] = Except.ok (ActivityOutcome.mapped ms)) :=
  claim_C8_empty_path_fatal "Run" (some "p") none [⟨0, 0⟩, ⟨1, 0⟩] 0 1800 [] []
    0 10 0 none none none (Or.inl rfl) (by decide)

/-- C9: getValidToken fails with the missing-credential error when no row
    exists; returns the cached token with no write while the expiry is
    beyond the 5-minute buffer; otherwise refreshes, persisting the new
    access token and expiry and retaining the old refresh token unless
    the provider supplies a new one; fails with the missing-refresh-token
    error when the refresh token is absent, and propagates a provider
    rejection; and every token it returns is valid beyond the buffer
    whenever the provider's refresh responses outlive the buffer. -/
theorem claim_C9_token_lifecycle (nowMs : Int)
    (refreshOp : String → Except String SpotifyTokenResponse)
    (c : AuthToken) :
    (getValidToken nowMs none refreshOp
      = Except.error "No token found for user")
    ∧ (nowMs + 5 * 60 * 1000 < c.expiresAtMs →
        ensureValidToken nowMs (some c) refreshOp
          = Except.ok (some (⟨c.accessToken, c.expiresAtMs⟩, none))
        ∧ getValidToken nowMs (some c) refreshOp = Except.ok c.accessToken)
    ∧ (c.expiresAtMs ≤ nowMs + 5 * 60 * 1000 → c.refreshToken = none →
        getValidToken nowMs (some c) refreshOp
          = Except.error "No refresh token available")
    ∧ (∀ rt resp, c.expiresAtMs ≤ nowMs + 5 * 60 * 1000 →
        c.refreshToken = some rt → refreshOp rt = Except.ok resp →
        ensureValidToken nowMs (some c) refreshOp
          = Except.ok (some
              (⟨resp.access_token, nowMs + resp.expires_in * 1000⟩,
               some ⟨resp.access_token, some (resp.refresh_token.getD rt),
                 nowMs + resp.expires_in * 1000⟩))
        ∧ getValidToken nowMs (some c) refreshOp
          = Except.ok resp.access_token)
    ∧ (∀ rt e, c.expiresAtMs ≤ nowMs + 5 * 60 * 1000 →
        c.refreshToken = some rt → refreshOp rt = Except.error e →
        getValidToken nowMs (some c) refreshOp = Except.error e)
    ∧ ((∀ rt resp, refreshOp rt = Except.ok resp → 300 < resp.expires_in) →
        ∀ r w, ensureValidToken nowMs (some c) refreshOp
          = Except.ok (some (r, w)) →
        nowMs + 5 * 60 * 1000 < r.expiresAtMs) := by
  refine ⟨rfl, ?_, ?_, ?_, ?_, ?_⟩
  · intro hexp
    have hexp' : nowMs + 300000 < c.expiresAtMs := by linarith
    constructor
    · simp [ensureValidToken, hexp']
    · simp [getValidToken, ensureValidToken, hexp']
  · intro hexp hrt
    have hexp' : ¬ (nowMs + 300000 < c.expiresAtMs) :=
      not_lt.mpr (by linarith)
    simp [getValidToken, ensureValidToken, hexp', hrt]
  · intro rt resp hexp hrt hop
    have hexp' : ¬ (nowMs + 300000 < c.expiresAtMs) :=
      not_lt.mpr (by linarith)
    constructor
    · simp [ensureValidToken, hexp', hrt, hop]
    · simp [getValidToken, ensureValidToken, hexp', hrt, hop]
  · intro rt e hexp hrt hop
    have hexp' : ¬ (nowMs + 300000 < c.expiresAtMs) :=
      not_lt.mpr (by linarith)
    simp [getValidToken, ensureValidToken, hexp', hrt, hop]
  · intro hbuf r w h
    by_cases hexp : nowMs + 5 * 60 * 1000 < c.expiresAtMs
    · simp only [ensureValidToken] at h
      rw [if_pos hexp] at h
      simp only [Except.ok.injEq, Option.some.injEq] at h
      have hr : (⟨c.accessToken, c.expiresAtMs⟩ : TokenRefreshResult) = r :=
        congrArg Prod.fst h
      have hrexp : r.expiresAtMs = c.expiresAtMs := by rw [← hr]
      rw [hrexp]
      linarith
    · simp only [ensureValidToken] at h
      rw [if_neg hexp] at h
      cases hrt : c.refreshToken with
      | none =>
          simp only [hrt] at h
          exact Except.noConfusion h
      | some rt =>
          simp only [hrt] at h
          cases hop : refreshOp rt with
          | error e =>
              simp only [hop] at h
              exact Except.noConfusion h
          | ok resp =>
              simp only [hop, Except.ok.injEq, Option.some.injEq] at h
              have hr : (⟨resp.access_token, nowMs + resp.expires_in * 1000⟩ :
                  TokenRefreshResult) = r := congrArg Prod.fst h
              have hrexp : r.expiresAtMs = nowMs + resp.expires_in * 1000 := by
                rw [← hr]
              have h300 := hbuf rt resp hop
              have hmul : 300 * 1000 < resp.expires_in * 1000 :=
                mul_lt_mul_of_pos_right h300 (by norm_num)
              rw [hrexp]
              linarith

/-- C9 witness: a credential expiring in 60 s is refreshed at the stored
    refresh token; the provider answers with a one-hour token and no new
    refresh token, so the old refresh token is retained. -/
theorem claim_C9_witness :
    (ensureValidToken 0 (some ⟨"oldA", some "oldR", 60000⟩)
        (fun rt => if rt = "oldR"
          then Except.ok ⟨"newA", 3600, none⟩
          else Except.error "bad refresh token")
      = Except.ok (some (⟨"newA", 3600000⟩,
          some ⟨"newA", some "oldR", 3600000⟩)))
    ∧ getValidToken 0 (some ⟨"oldA", some "oldR", 60000⟩)
        (fun rt => if rt = "oldR"
          then Except.ok ⟨"newA", 3600, none⟩
          else Except.error "bad refresh token")
      = Except.ok "newA" :=
  (claim_C9_token_lifecycle 0
      (fun rt => if rt = "oldR"
        then Except.ok ⟨"newA", 3600, none⟩
        else Except.error "bad refresh token")
      ⟨"oldA", some "oldR", 60000⟩).2.2.2.1
    "oldR" ⟨"newA", 3600, none⟩ (by norm_num) rfl (by norm_num)

lemma atan2_nonneg (y x : ℝ) (hy : 0 ≤ y) (hx : 0 ≤ x) : 0 ≤ atan2 y x := by
  unfold atan2
  split_ifs with h1 h2 h3 h4 h5
  · have := Real.arctan_strictMono.monotone (div_nonneg hy (le_of_lt h1))
    rwa [Real.arctan_zero] at this
  · linarith [h2.1]
  · linarith [h3.1]
  · positivity
  · linarith [h5.2]
  · exact le_refl 0

lemma calculateDistance_nonneg (c1 c2 : Coordinate) :
    0 ≤ calculateDistance c1 c2 := by
  unfold calculateDistance
  simp only []
  set a := Real.sin ((((c2.lat - c1.lat : ℚ) : ℝ) * Real.pi / 180) / 2) *
      Real.sin ((((c2.lat - c1.lat : ℚ) : ℝ) * Real.pi / 180) / 2) +
    Real.cos (((c1.lat : ℚ) : ℝ) * Real.pi / 180) *
      Real.cos (((c2.lat : ℚ) : ℝ) * Real.pi / 180) *
      Real.sin ((((c2.lng - c1.lng : ℚ) : ℝ) * Real.pi / 180) / 2) *
      Real.sin ((((c2.lng - c1.lng : ℚ) : ℝ) * Real.pi / 180) / 2) with ha
  have h := atan2_nonneg (Real.sqrt a) (Real.sqrt (1 - a))
    (Real.sqrt_nonneg a) (Real.sqrt_nonneg (1 - a))
  positivity

lemma calculateDistance_meridian (l1 l2 g : ℚ) (h : l2 - l1 = 1) :
    calculateDistance ⟨l1, g⟩ ⟨l2, g⟩ = 6371000 * (Real.pi / 180) := by
  unfold calculateDistance
  simp only []
  have hx0 : 0 < Real.pi / 360 := by positivity
  have hx1 : Real.pi / 360 < Real.pi / 2 := by linarith [Real.pi_pos]
  have hx2 : Real.pi / 360 < Real.pi := by linarith [Real.pi_pos]
  have hx3 : -(Real.pi / 2) < Real.pi / 360 := by linarith [Real.pi_pos]
  have hsin : (0 : ℝ) ≤ Real.sin (Real.pi / 360) :=
    le_of_lt (Real.sin_pos_of_pos_of_lt_pi hx0 hx2)
  have hcos : (0 : ℝ) < Real.cos (Real.pi / 360) :=
    Real.cos_pos_of_mem_Ioo ⟨hx3, hx1⟩
  have hdphi : (((l2 - l1 : ℚ) : ℝ) * Real.pi / 180) / 2 = Real.pi / 360 := by
    rw [h]
    push_cast
    ring
  have hdlam : (((g - g : ℚ) : ℝ) * Real.pi / 180) / 2 = 0 := by
    push_cast
    ring
  rw [hdphi, hdlam, Real.sin_zero]
  have ha : Real.sin (Real.pi / 360) * Real.sin (Real.pi / 360) +
      Real.cos ((l1 : ℝ) * Real.pi / 180) * Real.cos ((l2 : ℝ) * Real.pi / 180)
        * 0 * 0
      = Real.sin (Real.pi / 360) * Real.sin (Real.pi / 360) := by ring
  rw [ha]
  have hs1 : Real.sqrt (Real.sin (Real.pi / 360) * Real.sin (Real.pi / 360))
      = Real.sin (Real.pi / 360) := Real.sqrt_mul_self hsin
  have hpyth : 1 - Real.sin (Real.pi / 360) * Real.sin (Real.pi / 360)
      = Real.cos (Real.pi / 360) * Real.cos (Real.pi / 360) := by
    have hsc := Real.sin_sq_add_cos_sq (Real.pi / 360)
    nlinarith [hsc]
  have hs2 : Real.sqrt (1 - Real.sin (Real.pi / 360) * Real.sin (Real.pi / 360))
      = Real.cos (Real.pi / 360) := by
    rw [hpyth]
    exact Real.sqrt_mul_self (le_of_lt hcos)
  rw [hs1, hs2]
  have hat : atan2 (Real.sin (Real.pi / 360)) (Real.cos (Real.pi / 360))
      = Real.pi / 360 := by
    unfold atan2
    rw [if_pos hcos, ← Real.tan_eq_sin_div_cos, Real.arctan_tan hx3 hx1]
  rw [hat]
  ring

lemma getCoordinateAtPercentage_zero_idx (c0 c1 : Coordinate)
    (rest : List Coordinate) :
    getCoordinateAtPercentage (c0 :: c1 :: rest) 0 = some (c1, 1) := by
  rw [getCoordinateAtPercentage, if_neg (by simp)]
  simp only [cumulativeSegments, findSegment, Rat.cast_zero, mul_zero,
    zero_add]
  rw [if_pos (calculateDistance_nonneg c0 c1)]

lemma getCoordinateAtPercentage_isSome (coords : List Coordinate) (p : ℚ)
    (hne : coords ≠ []) (hp0 : 0 ≤ p) (hp1 : p ≤ 1) :
    ∃ r, getCoordinateAtPercentage coords p = some r := by
  cases coords with
  | nil => exact absurd rfl hne
  | cons c0 rest =>
      rw [getCoordinateAtPercentage,
        if_neg (by simp [not_or, not_lt] ; exact ⟨hp0, hp1⟩)]
      cases hf : findSegment
          ((((cumulativeSegments c0 0 1 rest).map fun e => e.1).getLastD 0)
            * (p : ℝ))
          (cumulativeSegments c0 0 1 rest) with
      | some r => exact ⟨r, by simp only [hf]⟩
      | none =>
          exact ⟨((c0 :: rest).getLast (List.cons_ne_nil c0 rest),
            (c0 :: rest).length - 1), by simp only [hf]⟩

lemma path5_half :
    getCoordinateAtPercentage path5 (1 / 2) = some (⟨2, 0⟩, 2) := by
  have h01 := calculateDistance_meridian 0 1 0 (by norm_num)
  have h12 := calculateDistance_meridian 1 2 0 (by norm_num)
  have h23 := calculateDistance_meridian 2 3 0 (by norm_num)
  have h34 := calculateDistance_meridian 3 4 0 (by norm_num)
  have hs : (0 : ℝ) < 6371000 * (Real.pi / 180) := by positivity
  rw [path5, getCoordinateAtPercentage, if_neg (by norm_num)]
  simp only [cumulativeSegments, findSegment, h01, h12, h23, h34,
    List.map_cons, List.map_nil, List.getLastD_cons, List.getLastD_nil,
    zero_add]
  have hhalf : ((1 / 2 : ℚ) : ℝ) = 1 / 2 := by norm_num
  rw [hhalf]
  rw [if_neg (by linarith), if_pos (by linarith)]

/-- C7 counterexample.  At fraction 0 the scan starts at index 1 and the
    cumulative distance there is already ≥ 0, so the matched point is the
    second path point (index 1), not the first path point claimed. -/
theorem claim_C7_counterexample :
    getCoordinateAtPercentage [⟨0, 0⟩, ⟨1, 0⟩] 0 = some (⟨1, 0⟩, 1)
    ∧ getCoordinateAtPercentage [⟨0, 0⟩, ⟨1, 0⟩] 0 ≠ some (⟨0, 0⟩, 0) := by
  have h := getCoordinateAtPercentage_zero_idx ⟨0, 0⟩ ⟨1, 0⟩ []
  refine ⟨h, ?_⟩
  rw [h]
  simp

/-- C7 (amended): for every nonempty path and fraction in [0,1] the walk
    yields a point; the scan starts at index 1, so fraction 0 matches the
    second path point (index 1) on any path with at least two points; and
    on the 5-point straight-line path fraction 0.5 matches index 2, the
    midpoint by cumulative Haversine distance. -/
theorem claim_C7_cumulative_walk (coords : List Coordinate) (p : ℚ)
    (c0 c1 : Coordinate) (rest : List Coordinate)
    (hne : coords ≠ []) (hp0 : 0 ≤ p) (hp1 : p ≤ 1) :
    (∃ r, getCoordinateAtPercentage coords p = some r)
    ∧ getCoordinateAtPercentage (c0 :: c1 :: rest) 0 = some (c1, 1)
    ∧ getCoordinateAtPercentage path5 (1 / 2) = some (⟨2, 0⟩, 2) :=
  ⟨getCoordinateAtPercentage_isSome coords p hne hp0 hp1,
   getCoordinateAtPercentage_zero_idx c0 c1 rest,
   path5_half⟩

/-- C7 witness: the amended behaviour at the 5-point straight-line path
    and a 2-point path. -/
theorem claim_C7_witness :
    (∃ r, getCoordinateAtPercentage path5 (1 / 4) = some r)
    ∧ getCoordinateAtPercentage [⟨0, 0⟩, ⟨1, 0⟩] 0 = some (⟨1, 0⟩, 1)
    ∧ getCoordinateAtPercentage path5 (1 / 2) = some (⟨2, 0⟩, 2) :=
  claim_C7_cumulative_walk path5 (1 / 4) ⟨0, 0⟩ ⟨1, 0⟩ []
    (by simp [path5]) (by norm_num) (by norm_num)

end RouteToMusic
